import Mathlib

/-
Verification of scripts/convert-video-to-ascii.py.

The script converts a video into a binary ASCII-animation asset.  This file
gives a shallow embedding of its core: glyph template construction
(build_glyph_templates), per-cell structural matching by normalized
cross-correlation (structural_match_frame), palette construction
(build_palette, with the external sklearn clustering abstracted as a fitting
function), and the binary serialization performed by main.  Machine floats
are modelled by rationals, with real square roots for the L2 norms.
-/

namespace AsciiVideo

/- First-occurrence argmax over a list, as numpy argmax computes it: the
returned index carries the maximum value, and every earlier index carries a
strictly smaller value. -/
def argmaxIdx {α : Type} [LinearOrder α] : List α → ℕ
  | [] => 0
  | x :: xs => if x < xs.getD (argmaxIdx xs) x then argmaxIdx xs + 1 else 0

/- First-occurrence argmin over a list, as numpy argmin and the sklearn
nearest-centroid prediction compute it. -/
def argminIdx {α : Type} [LinearOrder α] : List α → ℕ
  | [] => 0
  | x :: xs => if xs.getD (argminIdx xs) x < x then argminIdx xs + 1 else 0

/- Embedding of the source.  Grayscale frames are pixel lookup functions
(row, column to byte value), RGB frames are lookups returning byte triples;
the callers of structural_match_frame guarantee all accesses are in bounds. -/

/- region = frame_gray[y0 : y0 + cell_h, x0 : x0 + cell_w];
region_flat = region.flatten().astype(np.float32) / 255.0  (row-major). -/
def regionFlat (gray : ℕ → ℕ → ℕ) (y0 x0 ch cw : ℕ) : List ℚ :=
  ((List.range ch).map (fun dy =>
    (List.range cw).map (fun dx => ((gray (y0 + dy) (x0 + dx) : ℚ) / 255)))).flatten

def l2normSq (l : List ℚ) : ℚ := (l.map (fun x => x * x)).sum

/- np.linalg.norm of a flattened vector: the square root of the sum of squares. -/
noncomputable def l2norm (l : List ℚ) : ℝ := Real.sqrt ((l2normSq l : ℚ) : ℝ)

/- Dot product of two equal-length flattened vectors (flat_templates @ region_flat). -/
def dotQ (a b : List ℚ) : ℚ := (List.zipWith (fun x y => x * y) a b).sum

/- rgb_region = frame_rgb[y0 : y0 + cell_h, x0 : x0 + cell_w], row-major list. -/
def regionRGB (rgb : ℕ → ℕ → ℕ × ℕ × ℕ) (y0 x0 ch cw : ℕ) : List (ℕ × ℕ × ℕ) :=
  ((List.range ch).map (fun dy =>
    (List.range cw).map (fun dx => rgb (y0 + dy) (x0 + dx)))).flatten

/- avg_color = rgb_region.reshape(-1, 3).mean(axis=0): channelwise arithmetic mean. -/
def avgRGB (rgb : ℕ → ℕ → ℕ × ℕ × ℕ) (y0 x0 ch cw : ℕ) : ℚ × ℚ × ℚ :=
  (((regionRGB rgb y0 x0 ch cw).map (fun p => (p.1 : ℚ))).sum / (regionRGB rgb y0 x0 ch cw).length,
   ((regionRGB rgb y0 x0 ch cw).map (fun p => (p.2.1 : ℚ))).sum / (regionRGB rgb y0 x0 ch cw).length,
   ((regionRGB rgb y0 x0 ch cw).map (fun p => (p.2.2 : ℚ))).sum / (regionRGB rgb y0 x0 ch cw).length)

def sqDist (p q : ℚ × ℚ × ℚ) : ℚ :=
  (p.1 - q.1) ^ 2 + (p.2.1 - q.2.1) ^ 2 + (p.2.2 - q.2.2) ^ 2

/- Modelled from the spec: kmeans.predict on a single sample is not in the
repository (sklearn is an external library); per the spec the classifier
assigns a queried color to its nearest centroid under Euclidean distance,
first-encountered index on ties. -/
def predictIdx (centroids : List (ℚ × ℚ × ℚ)) (p : ℚ × ℚ × ℚ) : ℕ :=
  argminIdx (centroids.map (sqDist p))

/- Definition following the words of the claim (not the source): the index of
the palette entry nearest to a queried color, to be compared with the
classifier predictIdx that works on the float centroids instead. -/
def nearestPaletteIdx (pal : List (ℕ × ℕ × ℕ)) (p : ℚ × ℚ × ℚ) : ℕ :=
  argminIdx (pal.map (fun c => sqDist p ((c.1 : ℚ), (c.2.1 : ℚ), (c.2.2 : ℚ))))

/- The body of the per-cell loop of structural_match_frame: the glyph index
(fast path for a near-zero region norm, otherwise np.argmax of the normalized
cross-correlation scores) and the color index (kmeans.predict of the average
region color).  templates has shape (N, cell_h, cell_w) and is flattened to
(N, cell_h * cell_w) exactly as flat_templates = templates.reshape(n, -1). -/
noncomputable def matchCell (gray : ℕ → ℕ → ℕ) (rgb : ℕ → ℕ → ℕ × ℕ × ℕ)
    (templates : List (List (List ℚ))) (templateNorms : List ℝ)
    (centroids : List (ℚ × ℚ × ℚ)) (cw ch row col : ℕ) : ℕ × ℕ :=
  let y0 := row * ch
  let x0 := col * cw
  let regionF := regionFlat gray y0 x0 ch cw
  let rnorm := l2norm regionF
  let flatTemplates := templates.map List.flatten
  let scores := List.zipWith
    (fun t tn => ((dotQ t regionF : ℚ) : ℝ) / (tn * rnorm + 1 / 100000000))
    flatTemplates templateNorms
  let g := if rnorm < 1 / 1000000 then 0 else argmaxIdx scores
  (g, predictIdx centroids (avgRGB rgb y0 x0 ch cw))

/- structural_match_frame: result is a (rows, cols, 2) uint8 array filled in
row-major order with [charIdx, colorIdx] per cell and then flattened; the
uint8 stores are modelled by reduction mod 256. -/
noncomputable def structural_match_frame (gray : ℕ → ℕ → ℕ) (rgb : ℕ → ℕ → ℕ × ℕ × ℕ)
    (templates : List (List (List ℚ))) (templateNorms : List ℝ)
    (centroids : List (ℚ × ℚ × ℚ)) (cols rows cw ch : ℕ) : List ℕ :=
  ((List.range rows).map (fun row =>
    ((List.range cols).map (fun col =>
      [(matchCell gray rgb templates templateNorms centroids cw ch row col).1 % 256,
       (matchCell gray rgb templates templateNorms centroids cw ch row col).2 % 256])).flatten)).flatten

/- The normalized cross-correlation score of glyph j against a region, written
as the spec states it: (glyph bitmap dot region) / (glyph norm times region
norm + epsilon) with epsilon = 1e-8. -/
noncomputable def nccScore (templates : List (List (List ℚ))) (templateNorms : List ℝ)
    (regionF : List ℚ) (j : ℕ) : ℝ :=
  ((dotQ ((templates.getD j []).flatten) regionF : ℚ) : ℝ) /
    (templateNorms.getD j 0 * l2norm regionF + 1 / 100000000)

/- build_glyph_templates: for code in range(32, 127) render the character into
a cell_w x cell_h zero-initialized image and normalize to [0,1].  The
external PIL rasterization (ImageDraw.text on the zeroed image) is modelled
by the render parameter giving the byte value of each pixel. -/
def build_glyph_templates (render : ℕ → ℕ → ℕ → ℕ) (cw ch : ℕ) :
    List ℕ × List (List (List ℚ)) :=
  ((List.range 95).map (fun i => 32 + i),
   (List.range 95).map (fun i =>
     (List.range ch).map (fun y =>
       (List.range cw).map (fun x => ((render (32 + i) y x : ℚ) / 255)))))

/- all_pixels[::8]: every eighth element of a list, starting at index 0. -/
def every8 {α : Type} (l : List α) : List α :=
  (l.enum.filter (fun p => p.1 % 8 == 0)).map Prod.snd

/- palette = kmeans.cluster_centers_.astype(np.uint8): float centroids
truncated toward zero to bytes. -/
def truncRGB (c : ℚ × ℚ × ℚ) : ℕ × ℕ × ℕ :=
  ((⌊c.1⌋).toNat % 256, (⌊c.2.1⌋).toNat % 256, (⌊c.2.2⌋).toNat % 256)

/- The sample handed to the clustering: pool the row-major pixels of all
frames (np.concatenate of the reshaped frames), take every eighth pixel, and
cast to float (modelled by the cast into the rationals). -/
def paletteSample (frames : List (List (ℕ × ℕ × ℕ))) : List (ℚ × ℚ × ℚ) :=
  (every8 frames.flatten).map (fun p => ((p.1 : ℚ), (p.2.1 : ℚ), (p.2.2 : ℚ)))

/- build_palette.  The MiniBatchKMeans fit itself is external library code and
is abstracted as the fit parameter (cluster count, random seed, data to
centroids); the source fixes n_clusters = 256 and random_state = 42
(batch_size = 2048 and n_init = 3 are internal to the abstracted fit).
Returns the truncated byte palette and the float centroids backing the
classifier. -/
def build_palette (fit : ℕ → ℕ → List (ℚ × ℚ × ℚ) → List (ℚ × ℚ × ℚ))
    (frames : List (List (ℕ × ℕ × ℕ))) : List (ℕ × ℕ × ℕ) × List (ℚ × ℚ × ℚ) :=
  ((fit 256 42 (paletteSample frames)).map truncRGB, fit 256 42 (paletteSample frames))

/- np.concatenate raises ValueError when handed an empty list of arrays, so
build_palette fails on an empty frame set before anything else happens. -/
def build_palette_run (fit : ℕ → ℕ → List (ℚ × ℚ × ℚ) → List (ℚ × ℚ × ℚ))
    (frames : List (List (ℕ × ℕ × ℕ))) :
    Except String (List (ℕ × ℕ × ℕ) × List (ℚ × ℚ × ℚ)) :=
  if frames.isEmpty then Except.error "ValueError: need at least one array to concatenate"
  else Except.ok (build_palette fit frames)

/- struct.pack of one little-endian uint16 (low byte first). -/
def pack16 (x : ℕ) : List ℕ := [x % 256, x / 256 % 256]

/- The sequence of chunks main writes to the open destination file: the
packed header (cols, rows, fps, frame count), the char count byte, the char
table, the palette bytes, then one chunk per frame. -/
def outputChunks (cols rows fps : ℕ) (chars : List ℕ) (palette : List (ℕ × ℕ × ℕ))
    (frames : List (List ℕ)) : List (List ℕ) :=
  (pack16 cols ++ pack16 rows ++ pack16 fps ++ pack16 frames.length) ::
    [chars.length % 256] ::
    chars ::
    (palette.map (fun c => [c.1, c.2.1, c.2.2])).flatten ::
    frames

/- The full byte stream of the output file. -/
def writeOutput (cols rows fps : ℕ) (chars : List ℕ) (palette : List (ℕ × ℕ × ℕ))
    (frames : List (List ℕ)) : List ℕ :=
  (outputChunks cols rows fps chars palette frames).flatten

/- Little-endian decoding of the first two bytes of a list. -/
def decodeU16 : List ℕ → ℕ
  | [] => 0
  | [a] => a
  | a :: b :: _ => a + 256 * b

/- main opens the destination path directly (open(args.output, "wb")) and
writes the chunks in order, so if the run dies after k successful writes the
destination file holds exactly the first k chunks. -/
def destFileAfterFailure (chunks : List (List ℕ)) (k : ℕ) : List ℕ :=
  (chunks.take k).flatten

/- Python round: round half to even, otherwise to the nearest integer. -/
def pyRound (q : ℚ) : ℤ :=
  if q - ⌊q⌋ = 1 / 2 then (if 2 ∣ ⌊q⌋ then ⌊q⌋ else ⌊q⌋ + 1) else round q

/- The pipeline of main after frame extraction and loading: build the glyph
bank and the template norms, build the palette (failing on an empty frame
set), match every frame, and produce the chunks written to the output file.
Frames are row-major pixel grids; the grayscale conversion performed by
PIL convert("L") is an external collaborator modelled by toGray.  cw0 and
ch0 are the measured cell bounding box, clamped to the minimums of the
source; rows is derived from cols exactly as in the source. -/
noncomputable def mainRun (render : ℕ → ℕ → ℕ → ℕ)
    (fit : ℕ → ℕ → List (ℚ × ℚ × ℚ) → List (ℚ × ℚ × ℚ))
    (toGray : ℕ × ℕ × ℕ → ℕ)
    (framesRGB : List (List (List (ℕ × ℕ × ℕ)))) (fps cols cw0 ch0 : ℕ) :
    Except String (List (List ℕ)) :=
  let cw := max cw0 8
  let ch := max ch0 14
  let rows := (pyRound ((cols : ℚ) * 9 / 16 * ((cw : ℚ) / (ch : ℚ)))).toNat
  let bank := build_glyph_templates render cw ch
  let templateNorms := (bank.2.map List.flatten).map l2norm
  match build_palette_run fit (framesRGB.map List.flatten) with
  | Except.error e => Except.error e
  | Except.ok pc =>
      Except.ok (outputChunks cols rows fps bank.1 pc.1
        (framesRGB.map (fun fr =>
          structural_match_frame
            (fun i j => toGray ((fr.getD i []).getD j (0, 0, 0)))
            (fun i j => (fr.getD i []).getD j (0, 0, 0))
            bank.2 templateNorms pc.2 cols rows cw ch)))

/- Concrete centroid set and query color used to separate the classifier
(nearest float centroid) from the nearest truncated palette entry. -/
def ceCentroids : List (ℚ × ℚ × ℚ) :=
  (51 / 5, 0, 0) :: (11, 0, 0) :: List.replicate 254 (200, 200, 200)

def ceQuery : ℚ × ℚ × ℚ := (211 / 20, 0, 0)

theorem getD_eq_of_lt {α : Type} (l : List α) (i : ℕ) (d e : α) (h : i < l.length) :
    l.getD i d = l.getD i e := by
  induction l generalizing i with
  | nil => simp at h
  | cons a t ih =>
    cases i with
    | zero => simp
    | succ n =>
      simp only [List.getD_cons_succ]
      exact ih n (by simpa using h)

theorem argmaxIdx_lt_length {α : Type} [LinearOrder α] (l : List α) (h : l ≠ []) :
    argmaxIdx l < l.length := by
  induction l with
  | nil => cases h rfl
  | cons x xs ih =>
    rcases eq_or_ne xs [] with hxs | hxs
    · subst hxs
      simp [argmaxIdx]
    · have hlt := ih hxs
      simp only [argmaxIdx, List.length_cons]
      split
      · omega
      · omega

theorem argminIdx_lt_length {α : Type} [LinearOrder α] (l : List α) (h : l ≠ []) :
    argminIdx l < l.length := by
  induction l with
  | nil => cases h rfl
  | cons x xs ih =>
    rcases eq_or_ne xs [] with hxs | hxs
    · subst hxs
      simp [argminIdx]
    · have hlt := ih hxs
      simp only [argminIdx, List.length_cons]
      split
      · omega
      · omega

theorem argmaxIdx_le {α : Type} [LinearOrder α] (l : List α) (d : α) :
    ∀ j, j < l.length → l.getD j d ≤ l.getD (argmaxIdx l) d := by
  induction l with
  | nil => intro j hj; simp at hj
  | cons x xs ih =>
    intro j hj
    rcases eq_or_ne xs [] with hxs | hxs
    · subst hxs
      have hj0 : j = 0 := by simpa using hj
      subst hj0
      simp [argmaxIdx]
    · have hr : argmaxIdx xs < xs.length := argmaxIdx_lt_length xs hxs
      have hconv : xs.getD (argmaxIdx xs) x = xs.getD (argmaxIdx xs) d :=
        getD_eq_of_lt xs (argmaxIdx xs) x d hr
      simp only [argmaxIdx]
      by_cases hc : x < xs.getD (argmaxIdx xs) x
      · rw [if_pos hc, List.getD_cons_succ]
        cases j with
        | zero =>
          simp only [List.getD_cons_zero]
          rw [← hconv]
          exact hc.le
        | succ n =>
          rw [List.getD_cons_succ]
          exact ih n (by simpa using hj)
      · rw [if_neg hc]
        cases j with
        | zero => simp
        | succ n =>
          simp only [List.getD_cons_succ, List.getD_cons_zero]
          have h1 : xs.getD n d ≤ xs.getD (argmaxIdx xs) d := ih n (by simpa using hj)
          have h2 : xs.getD (argmaxIdx xs) d ≤ x := by
            rw [← hconv]; exact not_lt.mp hc
          exact h1.trans h2

theorem argminIdx_le {α : Type} [LinearOrder α] (l : List α) (d : α) :
    ∀ j, j < l.length → l.getD (argminIdx l) d ≤ l.getD j d := by
  induction l with
  | nil => intro j hj; simp at hj
  | cons x xs ih =>
    intro j hj
    rcases eq_or_ne xs [] with hxs | hxs
    · subst hxs
      have hj0 : j = 0 := by simpa using hj
      subst hj0
      simp [argminIdx]
    · have hr : argminIdx xs < xs.length := argminIdx_lt_length xs hxs
      have hconv : xs.getD (argminIdx xs) x = xs.getD (argminIdx xs) d :=
        getD_eq_of_lt xs (argminIdx xs) x d hr
      simp only [argminIdx]
      by_cases hc : xs.getD (argminIdx xs) x < x
      · rw [if_pos hc, List.getD_cons_succ]
        cases j with
        | zero =>
          simp only [List.getD_cons_zero]
          rw [← hconv]
          exact hc.le
        | succ n =>
          rw [List.getD_cons_succ]
          exact ih n (by simpa using hj)
      · rw [if_neg hc]
        cases j with
        | zero => simp
        | succ n =>
          simp only [List.getD_cons_succ, List.getD_cons_zero]
          have h1 : xs.getD (argminIdx xs) d ≤ xs.getD n d := ih n (by simpa using hj)
          have h2 : x ≤ xs.getD (argminIdx xs) d := by
            rw [← hconv]; exact not_lt.mp hc
          exact h2.trans h1

theorem argmaxIdx_first {α : Type} [LinearOrder α] (l : List α) (d : α) :
    ∀ j, j < argmaxIdx l → l.getD j d < l.getD (argmaxIdx l) d := by
  induction l with
  | nil => intro j hj; simp [argmaxIdx] at hj
  | cons x xs ih =>
    intro j hj
    rcases eq_or_ne xs [] with hxs | hxs
    · subst hxs
      simp [argmaxIdx] at hj
    · have hr : argmaxIdx xs < xs.length := argmaxIdx_lt_length xs hxs
      have hconv : xs.getD (argmaxIdx xs) x = xs.getD (argmaxIdx xs) d :=
        getD_eq_of_lt xs (argmaxIdx xs) x d hr
      simp only [argmaxIdx] at hj ⊢
      by_cases hc : x < xs.getD (argmaxIdx xs) x
      · rw [if_pos hc] at hj
        rw [if_pos hc, List.getD_cons_succ]
        cases j with
        | zero =>
          simp only [List.getD_cons_zero]
          rw [← hconv]
          exact hc
        | succ n =>
          rw [List.getD_cons_succ]
          exact ih n (by omega)
      · rw [if_neg hc] at hj
        exact absurd hj (Nat.not_lt_zero j)

theorem argminIdx_first {α : Type} [LinearOrder α] (l : List α) (d : α) :
    ∀ j, j < argminIdx l → l.getD (argminIdx l) d < l.getD j d := by
  induction l with
  | nil => intro j hj; simp [argminIdx] at hj
  | cons x xs ih =>
    intro j hj
    rcases eq_or_ne xs [] with hxs | hxs
    · subst hxs
      simp [argminIdx] at hj
    · have hr : argminIdx xs < xs.length := argminIdx_lt_length xs hxs
      have hconv : xs.getD (argminIdx xs) x = xs.getD (argminIdx xs) d :=
        getD_eq_of_lt xs (argminIdx xs) x d hr
      simp only [argminIdx] at hj ⊢
      by_cases hc : xs.getD (argminIdx xs) x < x
      · rw [if_pos hc] at hj
        rw [if_pos hc, List.getD_cons_succ]
        cases j with
        | zero =>
          simp only [List.getD_cons_zero]
          rw [← hconv]
          exact hc
        | succ n =>
          rw [List.getD_cons_succ]
          exact ih n (by omega)
      · rw [if_neg hc] at hj
        exact absurd hj (Nat.not_lt_zero j)

theorem argminIdx_eq_of {α : Type} [LinearOrder α] (l : List α) (d : α) (k : ℕ)
    (hk : k < l.length)
    (hle : ∀ j, j < l.length → l.getD k d ≤ l.getD j d)
    (hfirst : ∀ j, j < k → l.getD k d < l.getD j d) :
    argminIdx l = k := by
  have hne : l ≠ [] := by
    intro h
    subst h
    simp at hk
  have hr := argminIdx_lt_length l hne
  have h1 : l.getD (argminIdx l) d ≤ l.getD k d := argminIdx_le l d k hk
  have h2 : l.getD k d ≤ l.getD (argminIdx l) d := hle _ hr
  have heq : l.getD (argminIdx l) d = l.getD k d := le_antisymm h1 h2
  rcases lt_trichotomy (argminIdx l) k with h | h | h
  · have hcon := hfirst _ h
    rw [heq] at hcon
    exact absurd hcon (lt_irrefl _)
  · exact h
  · have hcon := argminIdx_first l d k h
    rw [heq] at hcon
    exact absurd hcon (lt_irrefl _)

theorem getD_map_lt {α β : Type} (f : α → β) (l : List α) (i : ℕ) (d : β) (dl : α)
    (h : i < l.length) :
    (l.map f).getD i d = f (l.getD i dl) := by
  induction l generalizing i with
  | nil => simp at h
  | cons a t ih =>
    cases i with
    | zero => simp
    | succ n =>
      simp only [List.map_cons, List.getD_cons_succ]
      exact ih n (by simpa using h)

theorem getD_zipWith_lt {α β γ : Type} (f : α → β → γ) (a : List α) (b : List β) (i : ℕ)
    (da : α) (db : β) (dc : γ) (h1 : i < a.length) (h2 : i < b.length) :
    (List.zipWith f a b).getD i dc = f (a.getD i da) (b.getD i db) := by
  induction a generalizing b i with
  | nil => simp at h1
  | cons x xs ih =>
    cases b with
    | nil => simp at h2
    | cons y ys =>
      cases i with
      | zero => simp
      | succ n =>
        simp only [List.zipWith_cons_cons, List.getD_cons_succ]
        exact ih ys n (by simpa using h1) (by simpa using h2)

theorem getD_range_map {α : Type} (f : ℕ → α) (n i : ℕ) (d : α) (h : i < n) :
    ((List.range n).map f).getD i d = f i := by
  rw [getD_map_lt f (List.range n) i d 0 (by simpa using h)]
  congr 1
  rw [List.getD_eq_getElem (List.range n) 0 (by simpa using h)]
  simp

theorem length_join_const {α β : Type} (f : α → List β) (k : ℕ) :
    ∀ l : List α, (∀ x ∈ l, (f x).length = k) → ((l.map f).flatten).length = l.length * k := by
  intro l
  induction l with
  | nil => intro _; simp
  | cons a t ih =>
    intro h
    simp only [List.map_cons, List.flatten_cons, List.length_append, List.length_cons]
    rw [ih (fun x hx => h x (by simp [hx])), h a (by simp)]
    ring

theorem length_join_of_mem {α : Type} (l : List (List α)) (k : ℕ)
    (h : ∀ x ∈ l, x.length = k) : l.flatten.length = l.length * k := by
  induction l with
  | nil => simp
  | cons a t ih =>
    simp only [List.flatten_cons, List.length_append, List.length_cons]
    rw [ih (fun x hx => h x (by simp [hx])), h a (by simp)]
    ring

theorem getD_join_map_range {α : Type} (g : ℕ → List α) (k : ℕ)
    (hk : ∀ i, (g i).length = k) :
    ∀ n i j d, i < n → j < k →
      (((List.range n).map g).flatten).getD (i * k + j) d = (g i).getD j d := by
  intro n
  induction n with
  | zero => intro i j d hi _; exact absurd hi (Nat.not_lt_zero i)
  | succ n ih =>
    intro i j d hi hj
    rw [List.range_succ, List.map_append, List.flatten_append]
    have hlen : (((List.range n).map g).flatten).length = n * k := by
      rw [length_join_const g k (List.range n) (fun x _ => hk x)]
      simp
    have htail : (([n].map g)).flatten = g n := by simp
    rcases Nat.lt_or_ge i n with hin | hin
    · have hidx : i * k + j < n * k := by
        have h1 : i * k + j < (i + 1) * k := by
          have h2 : (i + 1) * k = i * k + k := by ring
          omega
        have h3 : (i + 1) * k ≤ n * k := Nat.mul_le_mul_right k hin
        omega
      rw [List.getD_append _ _ _ _ (by omega)]
      exact ih i j d hin hj
    · have hieq : i = n := by omega
      subst hieq
      rw [List.getD_append_right _ _ _ _ (by rw [hlen]; omega)]
      rw [htail, hlen]
      congr 1
      omega

theorem getD_replicate_if {α : Type} (c d : α) (n j : ℕ) :
    (List.replicate n c).getD j d = if j < n then c else d := by
  induction n generalizing j with
  | zero => simp
  | succ n ih =>
    cases j with
    | zero => simp [List.replicate_succ]
    | succ j =>
      simp only [List.replicate_succ, List.getD_cons_succ, ih]
      by_cases h : j < n
      · rw [if_pos h, if_pos (by omega)]
      · rw [if_neg h, if_neg (by omega)]

theorem getD_cons2_replicate {α : Type} (a b c d : α) (n j : ℕ) :
    (a :: b :: List.replicate n c).getD j d =
      if j = 0 then a else if j = 1 then b else if j - 2 < n then c else d := by
  match j with
  | 0 => simp
  | 1 => simp
  | (j + 2) =>
    simp only [List.getD_cons_succ, getD_replicate_if]
    have h0 : ¬ (j + 2 = 0) := by omega
    have h1 : ¬ (j + 2 = 1) := by omega
    rw [if_neg h0, if_neg h1]
    by_cases h : j < n
    · rw [if_pos h, if_pos (by omega)]
    · rw [if_neg h, if_neg (by omega)]

theorem take_len_append {α : Type} (l m : List α) : (l ++ m).take l.length = l := by
  induction l with
  | nil => simp
  | cons a t ih => simp [ih]

theorem drop_len_append {α : Type} (l m : List α) : (l ++ m).drop l.length = m := by
  induction l with
  | nil => simp
  | cons a t ih => simp [ih]

theorem cell_index_lt (rows cols row col j : ℕ) (hrow : row < rows) (hcol : col < cols)
    (hj : j < 2) : 2 * (row * cols + col) + j < rows * (cols * 2) := by
  have h2 : (row + 1) * cols = row * cols + cols := by ring
  have h3 : (row + 1) * cols ≤ rows * cols := Nat.mul_le_mul_right cols hrow
  have h4 : rows * (cols * 2) = 2 * (rows * cols) := by ring
  omega

theorem smf_length (gray : ℕ → ℕ → ℕ) (rgb : ℕ → ℕ → ℕ × ℕ × ℕ)
    (templates : List (List (List ℚ))) (templateNorms : List ℝ)
    (centroids : List (ℚ × ℚ × ℚ)) (cols rows cw ch : ℕ) :
    (structural_match_frame gray rgb templates templateNorms centroids cols rows cw ch).length =
      rows * (cols * 2) := by
  rw [structural_match_frame]
  rw [length_join_const _ (cols * 2) (List.range rows) ?inner]
  · simp
  case inner =>
    intro r _
    rw [length_join_const _ 2 (List.range cols) ?pair]
    · simp [Nat.mul_comm]
    case pair => intro x _; rfl

theorem smf_getD (gray : ℕ → ℕ → ℕ) (rgb : ℕ → ℕ → ℕ × ℕ × ℕ)
    (templates : List (List (List ℚ))) (templateNorms : List ℝ)
    (centroids : List (ℚ × ℚ × ℚ)) (cols rows cw ch row col j : ℕ) (d : ℕ)
    (hrow : row < rows) (hcol : col < cols) (hj : j < 2) :
    (structural_match_frame gray rgb templates templateNorms centroids cols rows cw ch).getD
        (2 * (row * cols + col) + j) d =
      [(matchCell gray rgb templates templateNorms centroids cw ch row col).1 % 256,
       (matchCell gray rgb templates templateNorms centroids cw ch row col).2 % 256].getD j d := by
  have hidx : 2 * (row * cols + col) + j = row * (cols * 2) + (col * 2 + j) := by ring
  rw [structural_match_frame, hidx]
  have hinner : ∀ r : ℕ, (((List.range cols).map (fun col =>
      [(matchCell gray rgb templates templateNorms centroids cw ch r col).1 % 256,
       (matchCell gray rgb templates templateNorms centroids cw ch r col).2 % 256])).flatten).length
      = cols * 2 := by
    intro r
    rw [length_join_const _ 2 (List.range cols) ?pair2]
    · simp [Nat.mul_comm]
    case pair2 => intro x _; rfl
  rw [getD_join_map_range _ (cols * 2) hinner rows row (col * 2 + j) d hrow (by omega)]
  rw [getD_join_map_range _ 2 ?pair3 cols col j d hcol hj]
  case pair3 => intro _; rfl

theorem smf_getElem (gray : ℕ → ℕ → ℕ) (rgb : ℕ → ℕ → ℕ × ℕ × ℕ)
    (templates : List (List (List ℚ))) (templateNorms : List ℝ)
    (centroids : List (ℚ × ℚ × ℚ)) (cols rows cw ch row col j : ℕ)
    (hrow : row < rows) (hcol : col < cols) (hj : j < 2) :
    (structural_match_frame gray rgb templates templateNorms centroids cols rows cw ch)[2 *
        (row * cols + col) + j]? =
      some ([(matchCell gray rgb templates templateNorms centroids cw ch row col).1 % 256,
        (matchCell gray rgb templates templateNorms centroids cw ch row col).2 % 256].getD j 0) := by
  have hlen := smf_length gray rgb templates templateNorms centroids cols rows cw ch
  have hb : 2 * (row * cols + col) + j <
      (structural_match_frame gray rgb templates templateNorms centroids cols rows cw ch).length := by
    rw [hlen]
    exact cell_index_lt rows cols row col j hrow hcol hj
  rw [List.getElem?_eq_getElem hb]
  rw [← List.getD_eq_getElem _ 0 hb]
  rw [smf_getD gray rgb templates templateNorms centroids cols rows cw ch row col j 0 hrow hcol hj]

/-- Claim C1: for every cell of every frame, if the L2 norm of the cell's
grayscale region (flattened and normalized to [0,1]) is below the near-zero
threshold 1e-6, structural_match_frame assigns glyph index 0 (the space
glyph) to that cell. -/
theorem C1_near_zero_space (gray : ℕ → ℕ → ℕ) (rgb : ℕ → ℕ → ℕ × ℕ × ℕ)
    (templates : List (List (List ℚ))) (templateNorms : List ℝ)
    (centroids : List (ℚ × ℚ × ℚ)) (cols rows cw ch row col : ℕ)
    (hrow : row < rows) (hcol : col < cols)
    (hnorm : l2norm (regionFlat gray (row * ch) (col * cw) ch cw) < 1 / 1000000) :
    (structural_match_frame gray rgb templates templateNorms centroids cols rows cw
        ch)[2 * (row * cols + col)]? = some 0 := by
  have h := smf_getElem gray rgb templates templateNorms centroids cols rows cw ch row col 0
    hrow hcol (by omega)
  rw [show 2 * (row * cols + col) = 2 * (row * cols + col) + 0 from rfl, h]
  congr 1
  simp only [List.getD_cons_zero, matchCell]
  rw [if_pos hnorm]

/-- Witness for C1 at a concrete all-black 1x1 region: the selected glyph
index is 0. -/
theorem C1_near_zero_space_witness :
    (structural_match_frame (fun _ _ => 0) (fun _ _ => (0, 0, 0)) [] [] [] 1 1 1 1)[0]? =
      some 0 := by
  have hnorm : l2norm (regionFlat (fun _ _ => 0) (0 * 1) (0 * 1) 1 1) < 1 / 1000000 := by
    have hr : regionFlat (fun _ _ => 0) (0 * 1) (0 * 1) 1 1 = [(0 : ℚ)] := by
      norm_num [regionFlat, List.range_succ]
    have hsq : l2normSq [(0 : ℚ)] = 0 := by norm_num [l2normSq]
    rw [l2norm, hr, hsq]
    rw [Rat.cast_zero, Real.sqrt_zero]
    norm_num
  simpa using C1_near_zero_space (fun _ _ => 0) (fun _ _ => (0, 0, 0)) [] [] [] 1 1 1 1 0 0
    (by omega) (by omega) hnorm

/-- Claim C10: the near-zero-norm fast path affects only glyph selection; for
every cell, with no condition on the region norm, the serialized color index
is the classifier (nearest-centroid) assignment of the arithmetic mean RGB of
the cell's color region. -/
theorem C10_color_always_classified (gray : ℕ → ℕ → ℕ) (rgb : ℕ → ℕ → ℕ × ℕ × ℕ)
    (templates : List (List (List ℚ))) (templateNorms : List ℝ)
    (centroids : List (ℚ × ℚ × ℚ)) (cols rows cw ch row col : ℕ)
    (hrow : row < rows) (hcol : col < cols) :
    (structural_match_frame gray rgb templates templateNorms centroids cols rows cw
        ch)[2 * (row * cols + col) + 1]? =
      some (predictIdx centroids (avgRGB rgb (row * ch) (col * cw) ch cw) % 256) := by
  have h := smf_getElem gray rgb templates templateNorms centroids cols rows cw ch row col 1
    hrow hcol (by omega)
  rw [h]
  congr 1

/-- Witness for C10 at a concrete all-black cell (the fast path fires there,
yet the color byte is still the classifier output). -/
theorem C10_color_always_classified_witness :
    (structural_match_frame (fun _ _ => 0) (fun _ _ => (0, 0, 0)) [] [] [(0, 0, 0)] 1 1 1
        1)[1]? =
      some (predictIdx [((0 : ℚ), (0 : ℚ), (0 : ℚ))]
        (avgRGB (fun _ _ => (0, 0, 0)) (0 * 1) (0 * 1) 1 1) % 256) := by
  simpa using C10_color_always_classified (fun _ _ => 0) (fun _ _ => (0, 0, 0)) [] []
    [(0, 0, 0)] 1 1 1 1 0 0 (by omega) (by omega)

theorem matchCell_glyph_lt (gray : ℕ → ℕ → ℕ) (rgb : ℕ → ℕ → ℕ × ℕ × ℕ)
    (templates : List (List (List ℚ))) (templateNorms : List ℝ)
    (centroids : List (ℚ × ℚ × ℚ)) (cw ch row col : ℕ)
    (hN : templates ≠ []) (hlen : templateNorms.length = templates.length) :
    (matchCell gray rgb templates templateNorms centroids cw ch row col).1 <
      templates.length := by
  have hpos : 0 < templates.length := List.length_pos.mpr hN
  simp only [matchCell]
  split
  · exact hpos
  · have hslen : (List.zipWith
        (fun t tn => ((dotQ t (regionFlat gray (row * ch) (col * cw) ch cw) : ℚ) : ℝ) /
          (tn * l2norm (regionFlat gray (row * ch) (col * cw) ch cw) + 1 / 100000000))
        (templates.map List.flatten) templateNorms).length = templates.length := by
      simp [hlen]
    have hne : (List.zipWith
        (fun t tn => ((dotQ t (regionFlat gray (row * ch) (col * cw) ch cw) : ℚ) : ℝ) /
          (tn * l2norm (regionFlat gray (row * ch) (col * cw) ch cw) + 1 / 100000000))
        (templates.map List.flatten) templateNorms) ≠ [] := by
      apply List.ne_nil_of_length_pos
      rw [hslen]
      exact hpos
    have := argmaxIdx_lt_length _ hne
    rw [hslen] at this
    exact this

theorem matchCell_color_lt (gray : ℕ → ℕ → ℕ) (rgb : ℕ → ℕ → ℕ × ℕ × ℕ)
    (templates : List (List (List ℚ))) (templateNorms : List ℝ)
    (centroids : List (ℚ × ℚ × ℚ)) (cw ch row col : ℕ) (hc : centroids ≠ []) :
    (matchCell gray rgb templates templateNorms centroids cw ch row col).2 <
      centroids.length := by
  simp only [matchCell, predictIdx]
  have hne : (centroids.map
      (sqDist (avgRGB rgb (row * ch) (col * cw) ch cw))) ≠ [] := by
    simpa using hc
  have := argminIdx_lt_length _ hne
  simpa using this

/-- Claim C2: for every cell whose region norm is at or above the near-zero
threshold, the glyph index selected by structural_match_frame maximizes the
normalized cross-correlation score (glyph dot region) / (glyph norm times
region norm + 1e-8) over every glyph in the bank, with ties broken by the
first-encountered maximum in bank order. -/
theorem C2_ncc_argmax (gray : ℕ → ℕ → ℕ) (rgb : ℕ → ℕ → ℕ × ℕ × ℕ)
    (templates : List (List (List ℚ))) (templateNorms : List ℝ)
    (centroids : List (ℚ × ℚ × ℚ)) (cols rows cw ch row col : ℕ)
    (hrow : row < rows) (hcol : col < cols)
    (hN : templates ≠ []) (hN256 : templates.length ≤ 256)
    (hlen : templateNorms.length = templates.length)
    (hnorm : ¬ l2norm (regionFlat gray (row * ch) (col * cw) ch cw) < 1 / 1000000) :
    ∃ g, (structural_match_frame gray rgb templates templateNorms centroids cols rows cw
        ch)[2 * (row * cols + col)]? = some g ∧
      g < templates.length ∧
      (∀ j, j < templates.length →
        nccScore templates templateNorms (regionFlat gray (row * ch) (col * cw) ch cw) j ≤
        nccScore templates templateNorms (regionFlat gray (row * ch) (col * cw) ch cw) g) ∧
      (∀ j, j < g →
        nccScore templates templateNorms (regionFlat gray (row * ch) (col * cw) ch cw) j <
        nccScore templates templateNorms (regionFlat gray (row * ch) (col * cw) ch cw) g) := by
  have hpos : 0 < templates.length := List.length_pos.mpr hN
  have hcell : (matchCell gray rgb templates templateNorms centroids cw ch row col).1 =
      argmaxIdx (List.zipWith
        (fun t tn => ((dotQ t (regionFlat gray (row * ch) (col * cw) ch cw) : ℚ) : ℝ) /
          (tn * l2norm (regionFlat gray (row * ch) (col * cw) ch cw) + 1 / 100000000))
        (templates.map List.flatten) templateNorms) := by
    simp only [matchCell]
    rw [if_neg hnorm]
  set S := List.zipWith
      (fun t tn => ((dotQ t (regionFlat gray (row * ch) (col * cw) ch cw) : ℚ) : ℝ) /
        (tn * l2norm (regionFlat gray (row * ch) (col * cw) ch cw) + 1 / 100000000))
      (templates.map List.flatten) templateNorms with hS
  have hSlen : S.length = templates.length := by
    rw [hS]
    simp [hlen]
  have hSne : S ≠ [] := by
    apply List.ne_nil_of_length_pos
    rw [hSlen]
    exact hpos
  have hg : argmaxIdx S < templates.length := by
    have := argmaxIdx_lt_length S hSne
    rw [hSlen] at this
    exact this
  have hmod : argmaxIdx S % 256 = argmaxIdx S :=
    Nat.mod_eq_of_lt (lt_of_lt_of_le hg hN256)
  have hSget : ∀ j, j < templates.length →
      S.getD j 0 = nccScore templates templateNorms
        (regionFlat gray (row * ch) (col * cw) ch cw) j := by
    intro j hj
    rw [hS]
    rw [getD_zipWith_lt _ _ _ j [] 0 0 (by simpa using hj) (by rw [hlen]; exact hj)]
    rw [getD_map_lt List.flatten templates j [] [] hj]
    rfl
  refine ⟨argmaxIdx S, ?_, hg, ?_, ?_⟩
  · have h0 := smf_getElem gray rgb templates templateNorms centroids cols rows cw ch row col 0
      hrow hcol (by omega)
    rw [show 2 * (row * cols + col) = 2 * (row * cols + col) + 0 from rfl, h0]
    congr 1
    simp only [List.getD_cons_zero]
    rw [hcell, hmod]
  · intro j hj
    rw [← hSget j hj, ← hSget _ hg]
    exact argmaxIdx_le S 0 j (by rw [hSlen]; exact hj)
  · intro j hj
    have hjN : j < templates.length := lt_trans hj hg
    rw [← hSget j hjN, ← hSget _ hg]
    exact argmaxIdx_first S 0 j hj

/-- Claim C4: for every cell, the serialized glyph index is strictly below the
glyph-bank size and the serialized color index is strictly below 256. -/
theorem C4_index_bounds (gray : ℕ → ℕ → ℕ) (rgb : ℕ → ℕ → ℕ × ℕ × ℕ)
    (templates : List (List (List ℚ))) (templateNorms : List ℝ)
    (centroids : List (ℚ × ℚ × ℚ)) (cols rows cw ch row col : ℕ)
    (hrow : row < rows) (hcol : col < cols)
    (hN : templates ≠ []) (hN256 : templates.length ≤ 256)
    (hlen : templateNorms.length = templates.length)
    (hcent : centroids.length = 256) :
    ∃ g c, (structural_match_frame gray rgb templates templateNorms centroids cols rows cw
        ch)[2 * (row * cols + col)]? = some g ∧
      (structural_match_frame gray rgb templates templateNorms centroids cols rows cw
        ch)[2 * (row * cols + col) + 1]? = some c ∧
      g < templates.length ∧ c < 256 := by
  have hglt := matchCell_glyph_lt gray rgb templates templateNorms centroids cw ch row col
    hN hlen
  have hcne : centroids ≠ [] := by
    apply List.ne_nil_of_length_pos
    omega
  have hclt := matchCell_color_lt gray rgb templates templateNorms centroids cw ch row col hcne
  rw [hcent] at hclt
  have hgmod : (matchCell gray rgb templates templateNorms centroids cw ch row col).1 % 256 =
      (matchCell gray rgb templates templateNorms centroids cw ch row col).1 :=
    Nat.mod_eq_of_lt (lt_of_lt_of_le hglt hN256)
  have hcmod : (matchCell gray rgb templates templateNorms centroids cw ch row col).2 % 256 =
      (matchCell gray rgb templates templateNorms centroids cw ch row col).2 :=
    Nat.mod_eq_of_lt hclt
  have h0 := smf_getElem gray rgb templates templateNorms centroids cols rows cw ch row col 0
    hrow hcol (by omega)
  have h1 := smf_getElem gray rgb templates templateNorms centroids cols rows cw ch row col 1
    hrow hcol (by omega)
  refine ⟨(matchCell gray rgb templates templateNorms centroids cw ch row col).1,
    (matchCell gray rgb templates templateNorms centroids cw ch row col).2, ?_, ?_, hglt, hclt⟩
  · rw [show 2 * (row * cols + col) = 2 * (row * cols + col) + 0 from rfl, h0, hgmod]
    rfl
  · rw [h1, hcmod]
    rfl

/-- Witness for C2 at a concrete all-white 1x1 region against a two-glyph
bank: some glyph index is selected and it is in range. -/
theorem C2_ncc_argmax_witness :
    ∃ g, (structural_match_frame (fun _ _ => 255) (fun _ _ => (0, 0, 0)) [[[0]], [[1]]]
        [0, 1] [(0, 0, 0)] 1 1 1 1)[0]? = some g ∧ g < 2 := by
  have hr : regionFlat (fun _ _ => 255) (0 * 1) (0 * 1) 1 1 = [(1 : ℚ)] := by
    norm_num [regionFlat, List.range_succ]
  have hsq : l2normSq [(1 : ℚ)] = 1 := by norm_num [l2normSq]
  have hl : l2norm (regionFlat (fun _ _ => 255) (0 * 1) (0 * 1) 1 1) = 1 := by
    rw [l2norm, hr, hsq, Rat.cast_one, Real.sqrt_one]
  have hnorm : ¬ l2norm (regionFlat (fun _ _ => 255) (0 * 1) (0 * 1) 1 1) <
      (1 : ℝ) / 1000000 := by
    rw [hl]
    norm_num
  obtain ⟨g, h1, h2, _, _⟩ := C2_ncc_argmax (fun _ _ => 255) (fun _ _ => (0, 0, 0))
    [[[0]], [[1]]] [0, 1] [(0, 0, 0)] 1 1 1 1 0 0 (by omega) (by omega) (by simp)
    (by simp) rfl hnorm
  exact ⟨g, by simpa using h1, by simpa using h2⟩

/-- Witness for C4 at a concrete all-black 1x1 cell with a two-glyph bank and
a 256-entry centroid set: both serialized indices exist and are in range. -/
theorem C4_index_bounds_witness :
    ∃ g c, (structural_match_frame (fun _ _ => 0) (fun _ _ => (0, 0, 0)) [[[0]], [[1]]]
        [0, 1] (List.replicate 256 (0, 0, 0)) 1 1 1 1)[0]? = some g ∧
      (structural_match_frame (fun _ _ => 0) (fun _ _ => (0, 0, 0)) [[[0]], [[1]]]
        [0, 1] (List.replicate 256 (0, 0, 0)) 1 1 1 1)[1]? = some c ∧
      g < 2 ∧ c < 256 := by
  obtain ⟨g, c, h1, h2, h3, h4⟩ := C4_index_bounds (fun _ _ => 0) (fun _ _ => (0, 0, 0))
    [[[0]], [[1]]] [0, 1] (List.replicate 256 (0, 0, 0)) 1 1 1 1 0 0 (by omega) (by omega)
    (by simp) (by simp) rfl (by rw [List.length_replicate])
  exact ⟨g, c, h1, h2, h3, h4⟩

/-- Claim C5: for every font rasterizer and cell size, build_glyph_templates
produces exactly 95 glyphs covering character codes 32..126 in order (space
at index 0), each rendered into a cell-sized single-channel bitmap with
values normalized to [0,1]. -/
theorem C5_glyph_bank (render : ℕ → ℕ → ℕ → ℕ) (cw ch : ℕ)
    (h255 : ∀ c y x, render c y x ≤ 255) :
    (build_glyph_templates render cw ch).1.length = 95 ∧
    (build_glyph_templates render cw ch).2.length = 95 ∧
    (∀ i, i < 95 → (build_glyph_templates render cw ch).1.getD i 0 = 32 + i) ∧
    (build_glyph_templates render cw ch).1.getD 0 0 = 32 ∧
    (∀ i, i < 95 → ((build_glyph_templates render cw ch).2.getD i []).length = ch) ∧
    (∀ i y, i < 95 → y < ch →
      (((build_glyph_templates render cw ch).2.getD i []).getD y []).length = cw) ∧
    (∀ i y x, i < 95 → y < ch → x < cw →
      0 ≤ ((((build_glyph_templates render cw ch).2.getD i []).getD y []).getD x 0) ∧
      ((((build_glyph_templates render cw ch).2.getD i []).getD y []).getD x 0) ≤ 1) := by
  simp only [build_glyph_templates]
  refine ⟨by simp, by simp, ?_, ?_, ?_, ?_, ?_⟩
  · intro i hi
    exact getD_range_map _ 95 i 0 hi
  · rw [getD_range_map _ 95 0 0 (by omega)]
  · intro i hi
    rw [getD_range_map _ 95 i [] hi]
    simp
  · intro i y hi hy
    rw [getD_range_map _ 95 i [] hi, getD_range_map _ ch y [] hy]
    simp
  · intro i y x hi hy hx
    rw [getD_range_map _ 95 i [] hi, getD_range_map _ ch y [] hy,
      getD_range_map _ cw x 0 hx]
    constructor
    · positivity
    · rw [div_le_one (by norm_num)]
      exact_mod_cast h255 (32 + i) y x

/-- Witness for C5 with a concrete blank rasterizer and a 1x1 cell: the bank
has exactly 95 entries and the glyph at index 0 is the space character. -/
theorem C5_glyph_bank_witness :
    (build_glyph_templates (fun _ _ _ => 0) 1 1).1.length = 95 ∧
    (build_glyph_templates (fun _ _ _ => 0) 1 1).1.getD 0 0 = 32 := by
  have h := C5_glyph_bank (fun _ _ _ => 0) 1 1 (fun _ _ _ => by norm_num)
  exact ⟨h.1, h.2.2.2.1⟩

/-- Claim C3: the serialized output is laid out little-endian as the uint16
header (cols, rows, fps, frameCount), the uint8 numChars, the numChars
character-table bytes, the 768 palette bytes and the frame blocks in source
order; the frameCount field equals the number of frame blocks written and the
total size is 8 + 1 + numChars + 768 + frameCount * cols * rows * 2 bytes. -/
theorem C3_serialized_layout (cols rows fps : ℕ) (chars : List ℕ)
    (palette : List (ℕ × ℕ × ℕ)) (frames : List (List ℕ))
    (hcols : cols < 65536) (hrows : rows < 65536) (hfps : fps < 65536)
    (hfc : frames.length < 65536) (hchars : chars.length < 256)
    (hpal : palette.length = 256)
    (hfr : ∀ fr ∈ frames, fr.length = cols * rows * 2) :
    (writeOutput cols rows fps chars palette frames).length =
      8 + 1 + chars.length + 768 + frames.length * (cols * rows * 2) ∧
    decodeU16 (writeOutput cols rows fps chars palette frames) = cols ∧
    decodeU16 ((writeOutput cols rows fps chars palette frames).drop 2) = rows ∧
    decodeU16 ((writeOutput cols rows fps chars palette frames).drop 4) = fps ∧
    decodeU16 ((writeOutput cols rows fps chars palette frames).drop 6) = frames.length ∧
    (writeOutput cols rows fps chars palette frames).getD 8 0 = chars.length ∧
    ((writeOutput cols rows fps chars palette frames).drop 9).take chars.length = chars ∧
    (((writeOutput cols rows fps chars palette frames).drop 9).drop chars.length).take 768 =
      (palette.map (fun c => [c.1, c.2.1, c.2.2])).flatten ∧
    (((writeOutput cols rows fps chars palette frames).drop 9).drop chars.length).drop 768 =
      frames.flatten := by
  have hpalLen : ((palette.map (fun c => [c.1, c.2.1, c.2.2])).flatten).length = 768 := by
    rw [length_join_const _ 3 palette ?three]
    · rw [hpal]
    case three => intro x _; rfl
  have hfrLen : frames.flatten.length = frames.length * (cols * rows * 2) :=
    length_join_of_mem frames _ hfr
  have hform : writeOutput cols rows fps chars palette frames =
      cols % 256 :: cols / 256 % 256 :: rows % 256 :: rows / 256 % 256 ::
      fps % 256 :: fps / 256 % 256 :: frames.length % 256 :: frames.length / 256 % 256 ::
      chars.length % 256 ::
      (chars ++ ((palette.map (fun c => [c.1, c.2.1, c.2.2])).flatten ++ frames.flatten)) :=
    rfl
  refine ⟨?_, ?_, ?_, ?_, ?_, ?_, ?_, ?_, ?_⟩
  · rw [hform]
    simp only [List.length_cons, List.length_append]
    rw [hpalLen, hfrLen]
    omega
  · rw [hform]
    show cols % 256 + 256 * (cols / 256 % 256) = cols
    omega
  · rw [hform]
    show rows % 256 + 256 * (rows / 256 % 256) = rows
    omega
  · rw [hform]
    show fps % 256 + 256 * (fps / 256 % 256) = fps
    omega
  · rw [hform]
    show frames.length % 256 + 256 * (frames.length / 256 % 256) = frames.length
    omega
  · rw [hform]
    show chars.length % 256 = chars.length
    omega
  · rw [hform]
    show (chars ++ ((palette.map (fun c => [c.1, c.2.1, c.2.2])).flatten ++
      frames.flatten)).take chars.length = chars
    exact take_len_append _ _
  · rw [hform]
    show ((chars ++ ((palette.map (fun c => [c.1, c.2.1, c.2.2])).flatten ++
      frames.flatten)).drop chars.length).take 768 =
      (palette.map (fun c => [c.1, c.2.1, c.2.2])).flatten
    rw [drop_len_append]
    rw [← hpalLen]
    exact take_len_append _ _
  · rw [hform]
    show ((chars ++ ((palette.map (fun c => [c.1, c.2.1, c.2.2])).flatten ++
      frames.flatten)).drop chars.length).drop 768 = frames.flatten
    rw [drop_len_append]
    rw [← hpalLen]
    exact drop_len_append _ _

/-- Witness for C3 with one frame on a 1x1 grid: the file size formula and
the frameCount field hold on the concrete output bytes. -/
theorem C3_serialized_layout_witness :
    (writeOutput 1 1 1 [32] (List.replicate 256 (1, 2, 3)) [[7, 9]]).length =
      8 + 1 + [(32 : ℕ)].length + 768 + [[(7 : ℕ), 9]].length * (1 * 1 * 2) ∧
    decodeU16 ((writeOutput 1 1 1 [32] (List.replicate 256 (1, 2, 3)) [[7, 9]]).drop 6) =
      [[(7 : ℕ), 9]].length := by
  have h := C3_serialized_layout 1 1 1 [32] (List.replicate 256 (1, 2, 3)) [[7, 9]]
    (by norm_num) (by norm_num) (by norm_num) (by norm_num) (by norm_num)
    (by rw [List.length_replicate])
    (by intro fr hf; rw [List.mem_singleton] at hf; subst hf; rfl)
  exact ⟨h.1, h.2.2.2.2.1⟩

/-- Claim C7: the encoding is deterministic; with the same frame set, the
same configuration (fps, cols, cell measurements), the same collaborators and
the fixed clustering seed baked into build_palette, two runs produce a
byte-identical palette and byte-identical output chunks. -/
theorem C7_deterministic_encoding (render : ℕ → ℕ → ℕ → ℕ)
    (fit : ℕ → ℕ → List (ℚ × ℚ × ℚ) → List (ℚ × ℚ × ℚ)) (toGray : ℕ × ℕ × ℕ → ℕ)
    (framesRGB : List (List (List (ℕ × ℕ × ℕ)))) (fps cols cw0 ch0 : ℕ)
    (r1 r2 : Except String (List (List ℕ)))
    (p1 p2 : List (ℕ × ℕ × ℕ) × List (ℚ × ℚ × ℚ))
    (h1 : r1 = mainRun render fit toGray framesRGB fps cols cw0 ch0)
    (h2 : r2 = mainRun render fit toGray framesRGB fps cols cw0 ch0)
    (h3 : p1 = build_palette fit (framesRGB.map List.flatten))
    (h4 : p2 = build_palette fit (framesRGB.map List.flatten)) :
    r1 = r2 ∧ p1.1 = p2.1 := by
  subst h1
  subst h2
  subst h3
  subst h4
  exact ⟨rfl, rfl⟩

/-- Witness for C7 on a concrete (empty) run: both repeated results agree. -/
theorem C7_deterministic_encoding_witness :
    mainRun (fun _ _ _ => 0) (fun _ _ _ => []) (fun _ => 0) [] 1 1 1 1 =
      mainRun (fun _ _ _ => 0) (fun _ _ _ => []) (fun _ => 0) [] 1 1 1 1 ∧
    (build_palette (fun _ _ _ => [])
        (([] : List (List (List (ℕ × ℕ × ℕ)))).map List.flatten)).1 =
      (build_palette (fun _ _ _ => [])
        (([] : List (List (List (ℕ × ℕ × ℕ)))).map List.flatten)).1 :=
  C7_deterministic_encoding (fun _ _ _ => 0) (fun _ _ _ => []) (fun _ => 0) [] 1 1 1 1
    _ _ _ _ rfl rfl rfl rfl

/-- Claim C8 counterexample: main opens the destination file directly and
writes chunks in sequence; on the concrete one-frame input, a failure after
the first chunk write leaves a file at the destination that is neither empty
nor the complete output, so a partial file is left in place (no temporary
file plus atomic rename is used). -/
theorem C8_write_counterexample :
    destFileAfterFailure (outputChunks 1 1 1 [32] (List.replicate 256 (0, 0, 0)) [[0, 0]])
        1 ≠ [] ∧
    destFileAfterFailure (outputChunks 1 1 1 [32] (List.replicate 256 (0, 0, 0)) [[0, 0]])
        1 ≠ writeOutput 1 1 1 [32] (List.replicate 256 (0, 0, 0)) [[0, 0]] := by
  constructor
  · decide
  · decide

/-- Claim C8 (amended): writing goes directly to the destination; the content
left at the destination after a failure partway is exactly the prefix of the
intended output consisting of the chunks already written, the remaining
chunks making up the rest. -/
theorem C8_write_amended (cols rows fps : ℕ) (chars : List ℕ)
    (palette : List (ℕ × ℕ × ℕ)) (frames : List (List ℕ)) (k : ℕ) :
    destFileAfterFailure (outputChunks cols rows fps chars palette frames) k ++
      ((outputChunks cols rows fps chars palette frames).drop k).flatten =
      writeOutput cols rows fps chars palette frames := by
  rw [destFileAfterFailure, writeOutput, ← List.flatten_append, List.take_append_drop]

/-- Claim C9: with an empty extracted frame set the run fails during palette
construction (np.concatenate over zero arrays), so no output chunk is ever
produced and the output file is never created. -/
theorem C9_empty_frames_abort (render : ℕ → ℕ → ℕ → ℕ)
    (fit : ℕ → ℕ → List (ℚ × ℚ × ℚ) → List (ℚ × ℚ × ℚ)) (toGray : ℕ × ℕ × ℕ → ℕ)
    (fps cols cw0 ch0 : ℕ) :
    mainRun render fit toGray [] fps cols cw0 ch0 =
      Except.error "ValueError: need at least one array to concatenate" := rfl

/-- Claim C6 counterexample: the classifier returned by build_palette assigns
a query to its nearest float centroid, not to its nearest (truncated) palette
entry.  With centroids (10.2, 0, 0) and (11, 0, 0) (palette entries (10,0,0)
and (11,0,0)) and query (10.55, 0, 0), the classifier answers index 0 while
the nearest palette entry is index 1. -/
theorem C6_classifier_counterexample :
    (build_palette (fun _ _ _ => ceCentroids) [[(0, 0, 0)]]).2 = ceCentroids ∧
    predictIdx (build_palette (fun _ _ _ => ceCentroids) [[(0, 0, 0)]]).2 ceQuery = 0 ∧
    nearestPaletteIdx (build_palette (fun _ _ _ => ceCentroids) [[(0, 0, 0)]]).1 ceQuery =
      1 := by
  have hc2 : (build_palette (fun _ _ _ => ceCentroids) [[(0, 0, 0)]]).2 = ceCentroids := rfl
  have hc1 : (build_palette (fun _ _ _ => ceCentroids) [[(0, 0, 0)]]).1 =
      (10, 0, 0) :: (11, 0, 0) :: List.replicate 254 (200, 200, 200) := by
    have t1 : truncRGB (51 / 5, 0, 0) = (10, 0, 0) := by
      rw [truncRGB]
      norm_num
      all_goals decide
    have t2 : truncRGB (11, 0, 0) = (11, 0, 0) := by
      rw [truncRGB]
      norm_num
      all_goals decide
    have t3 : truncRGB (200, 200, 200) = (200, 200, 200) := by
      rw [truncRGB]
      norm_num
      all_goals decide
    show ceCentroids.map truncRGB = _
    rw [ceCentroids, List.map_cons, List.map_cons, List.map_replicate, t1, t2, t3]
  refine ⟨hc2, ?_, ?_⟩
  · rw [hc2]
    have e1 : sqDist ceQuery (51 / 5, 0, 0) = 49 / 400 := by norm_num [sqDist, ceQuery]
    have e2 : sqDist ceQuery (11, 0, 0) = 81 / 400 := by norm_num [sqDist, ceQuery]
    have e3 : sqDist ceQuery (200, 200, 200) = 46356521 / 400 := by
      norm_num [sqDist, ceQuery]
    have hmap : ceCentroids.map (sqDist ceQuery) =
        (49 / 400 : ℚ) :: (81 / 400 : ℚ) :: List.replicate 254 (46356521 / 400 : ℚ) := by
      rw [ceCentroids, List.map_cons, List.map_cons, List.map_replicate, e1, e2, e3]
    rw [predictIdx, hmap]
    apply argminIdx_eq_of _ (0 : ℚ) 0
    · rw [List.length_cons, List.length_cons, List.length_replicate]
      omega
    · intro j hj
      have hjlen : j < 256 := by
        rw [List.length_cons, List.length_cons, List.length_replicate] at hj
        omega
      simp only [List.getD_cons_zero]
      rw [getD_cons2_replicate]
      split_ifs with h1 h2 h3
      · norm_num
      · norm_num
      · norm_num
      · exfalso
        omega
    · intro j hj
      exact absurd hj (Nat.not_lt_zero j)
  · rw [hc1]
    have f1 : sqDist ceQuery (((10 : ℕ) : ℚ), ((0 : ℕ) : ℚ), ((0 : ℕ) : ℚ)) = 121 / 400 := by
      norm_num [sqDist, ceQuery]
    have f2 : sqDist ceQuery (((11 : ℕ) : ℚ), ((0 : ℕ) : ℚ), ((0 : ℕ) : ℚ)) = 81 / 400 := by
      norm_num [sqDist, ceQuery]
    have f3 : sqDist ceQuery (((200 : ℕ) : ℚ), ((200 : ℕ) : ℚ), ((200 : ℕ) : ℚ)) =
        46356521 / 400 := by
      norm_num [sqDist, ceQuery]
    have hmap : ((10, 0, 0) :: (11, 0, 0) ::
        List.replicate 254 ((200 : ℕ), (200 : ℕ), (200 : ℕ))).map
          (fun c => sqDist ceQuery ((c.1 : ℚ), (c.2.1 : ℚ), (c.2.2 : ℚ))) =
        (121 / 400 : ℚ) :: (81 / 400 : ℚ) :: List.replicate 254 (46356521 / 400 : ℚ) := by
      rw [List.map_cons, List.map_cons, List.map_replicate]
      exact congrArg₂ (· :: ·) f1 (congrArg₂ (· :: ·) f2 (congrArg _ f3))
    rw [nearestPaletteIdx, hmap]
    apply argminIdx_eq_of _ (0 : ℚ) 1
    · rw [List.length_cons, List.length_cons, List.length_replicate]
      omega
    · intro j hj
      have hjlen : j < 256 := by
        rw [List.length_cons, List.length_cons, List.length_replicate] at hj
        omega
      simp only [List.getD_cons_succ, List.getD_cons_zero]
      rw [getD_cons2_replicate]
      split_ifs with h1 h2 h3
      · norm_num
      · norm_num
      · norm_num
      · exfalso
        omega
    · intro j hj
      have hj0 : j = 0 := by omega
      subst hj0
      simp only [List.getD_cons_succ, List.getD_cons_zero]
      norm_num

/-- Claim C6 (amended): build_palette pools the row-major pixels of all
frames, subsamples every eighth pixel, clusters with the fixed seed 42 into
256 clusters, and (provided the clustering yields its 256 centroids) returns
exactly 256 palette colors, the truncations of the centroids; the classifier
maps an arbitrary color to the index of its nearest float centroid under
Euclidean distance (first index on ties), which is the index of a palette
entry but not always the nearest palette entry. -/
theorem C6_palette_amended (fit : ℕ → ℕ → List (ℚ × ℚ × ℚ) → List (ℚ × ℚ × ℚ))
    (frames : List (List (ℕ × ℕ × ℕ)))
    (_hne : frames ≠ [])
    (hfit : (fit 256 42 (paletteSample frames)).length = 256) :
    (build_palette fit frames).1.length = 256 ∧
    (build_palette fit frames).2 = fit 256 42 (paletteSample frames) ∧
    (build_palette fit frames).1 = (fit 256 42 (paletteSample frames)).map truncRGB ∧
    (∀ q, predictIdx (build_palette fit frames).2 q < 256 ∧
      (∀ j, j < 256 →
        sqDist q ((build_palette fit frames).2.getD
          (predictIdx (build_palette fit frames).2 q) (0, 0, 0)) ≤
        sqDist q ((build_palette fit frames).2.getD j (0, 0, 0))) ∧
      (∀ j, j < predictIdx (build_palette fit frames).2 q →
        sqDist q ((build_palette fit frames).2.getD
          (predictIdx (build_palette fit frames).2 q) (0, 0, 0)) <
        sqDist q ((build_palette fit frames).2.getD j (0, 0, 0)))) := by
  have hC2 : (build_palette fit frames).2 = fit 256 42 (paletteSample frames) := rfl
  have hC1 : (build_palette fit frames).1 =
      (fit 256 42 (paletteSample frames)).map truncRGB := rfl
  refine ⟨?_, hC2, hC1, ?_⟩
  · rw [hC1]
    simp [hfit]
  · intro q
    rw [hC2]
    have hmlen : ((fit 256 42 (paletteSample frames)).map (sqDist q)).length = 256 := by
      simp [hfit]
    have hmne : (fit 256 42 (paletteSample frames)).map (sqDist q) ≠ [] := by
      apply List.ne_nil_of_length_pos
      omega
    have hpred : predictIdx (fit 256 42 (paletteSample frames)) q < 256 := by
      have := argminIdx_lt_length _ hmne
      rw [hmlen] at this
      exact this
    have hget : ∀ i, i < 256 →
        ((fit 256 42 (paletteSample frames)).map (sqDist q)).getD i 0 =
        sqDist q ((fit 256 42 (paletteSample frames)).getD i (0, 0, 0)) := by
      intro i hi
      exact getD_map_lt (sqDist q) _ i 0 (0, 0, 0) (by rw [hfit]; exact hi)
    refine ⟨hpred, ?_, ?_⟩
    · intro j hj
      rw [← hget _ hpred, ← hget _ hj]
      exact argminIdx_le _ 0 j (by rw [hmlen]; exact hj)
    · intro j hj
      have hjlt : j < 256 := lt_trans hj hpred
      rw [← hget _ hpred, ← hget _ hjlt]
      exact argminIdx_first _ 0 j hj

/-- Witness for the amended C6 with a concrete fitting function returning 256
centroids: the palette has exactly 256 entries. -/
theorem C6_palette_amended_witness :
    (build_palette (fun _ _ _ => List.replicate 256 ((0 : ℚ), (0 : ℚ), (0 : ℚ)))
        [[(0, 0, 0)]]).1.length = 256 :=
  (C6_palette_amended (fun _ _ _ => List.replicate 256 ((0 : ℚ), (0 : ℚ), (0 : ℚ)))
    [[(0, 0, 0)]] (by simp) (by rw [List.length_replicate])).1

end AsciiVideo
